import Mathlib

/-!
# Coding progress tracker: backend model

A shallow embedding of the Express backend of the tracker
(`backend/routes/progress.js`, `backend/routes/auth.js`,
`backend/middleware/auth.js`, with the Mongoose schemas of
`backend/models/Progress.js` and `backend/models/User.js`), and of the request
interceptor of the client (`frontend/src/api.js`).

Modelling conventions.

* A collection is the list of its documents in insertion order; a handler is a
  function from the collection before the request to an `Outcome`: the response
  sent, the collection afterwards, the storage operations issued and the lines
  written with `console.error`.
* An `ObjectId` is a natural number.  Request bodies are typed: `platform` is a
  string or `undefined`, the two counts are integers or `undefined`.
* What the handlers read from their surroundings is an explicit argument:
  the clock (`Date.now()`), the `_id` generated by `new Progress(...)`, the
  failure (if any) thrown by each storage call, and the writes other requests
  make to the collection between the lookup and the save of an upsert.
* `jwt.verify`, `jwt.sign`, `bcrypt.hash` and `bcrypt.compare` are parameters.
* The setters of a schema path (`trim`, `lowercase`) run on the values of new
  documents and on the values of query filters.
-/

namespace Tracker

/-! ## Strings -/

/-- White space and line terminators removed by `String.prototype.trim`. -/
def isJsWhiteSpace (c : Char) : Bool :=
  let n := c.toNat
  n == 0x09 || n == 0x0A || n == 0x0B || n == 0x0C || n == 0x0D || n == 0x20 ||
  n == 0xA0 || n == 0x1680 || (0x2000 ≤ n && n ≤ 0x200A) || n == 0x2028 ||
  n == 0x2029 || n == 0x202F || n == 0x205F || n == 0x3000 || n == 0xFEFF

/-- Trimming on the list of characters: leading, then trailing white space. -/
def trimChars (cs : List Char) : List Char :=
  ((cs.dropWhile isJsWhiteSpace).reverse.dropWhile isJsWhiteSpace).reverse

/-- The method `trim()` of a JavaScript string. -/
def jsTrim (s : String) : String := ⟨trimChars s.data⟩

/-! ## Values shared by the handlers -/

abbrev ObjectId := Nat

/-- A thrown JavaScript error: its `name` and its `message`. -/
structure JsError where
  name : String
  message : String
deriving DecidableEq, Repr

/-- A document of the `Progress` collection (`models/Progress.js`). -/
structure Progress where
  _id : ObjectId
  userId : ObjectId
  platform : String
  problemsSolved : Int
  totalProblems : Int
  lastUpdated : Nat
deriving DecidableEq, Repr

/-- The JSON bodies the handlers send. -/
inductive Body where
  /-- The body with the single field `message`. -/
  | message (message : String)
  /-- The body of a 500 response: `message` and `error` (the value of `error.message`). -/
  | failure (message : String) (error : String)
  /-- The array sent by `GET /api/progress`. -/
  | records (progress : List Progress)
  /-- The body of a successful upsert: `progress` and `message`. -/
  | saved (progress : Progress) (message : String)
  /-- The body of a successful register or login. -/
  | session (token : String) (userId : ObjectId) (username : String) (message : String)
deriving DecidableEq, Repr

/-- An HTTP response: status code and JSON body. -/
structure Response where
  status : Nat
  body : Body
deriving DecidableEq, Repr

/-- A line written with `console.error(label, error)`. -/
structure LogLine where
  label : String
  error : JsError
deriving DecidableEq, Repr

/-! ## The Progress collection -/

/-- Storage operations a handler issues against the `Progress` collection. -/
inductive StoreOp where
  | find (userId : ObjectId)
  | findOne (userId : ObjectId) (platform : String)
  | insert (doc : Progress)
  | update (_id : ObjectId)
  | findOneAndDelete (_id : ObjectId) (userId : ObjectId)
deriving DecidableEq, Repr

/-- What a request to the progress routes leaves behind. -/
structure Outcome where
  response : Response
  store : List Progress
  ops : List StoreOp
  log : List LogLine
deriving DecidableEq, Repr

/-- The filter with a `userId` and a `platform`, the fields of the compound unique index. -/
def sameKey (userId : ObjectId) (platform : String) (d : Progress) : Bool :=
  d.userId == userId && d.platform == platform

/-- The query `Progress.findOne` with a `userId` and a `platform`: the first match. -/
def findOne (userId : ObjectId) (platform : String) (store : List Progress) : Option Progress :=
  store.find? (sameKey userId platform)

/-- The error Mongoose throws when a validator of the schema rejects a path. -/
def validationError (path : String) : JsError :=
  ⟨"ValidationError", "Progress validation failed: " ++ path⟩

/-- The error of the driver on a violated unique index (code 11000). -/
def duplicateKeyError (index : String) : JsError :=
  ⟨"MongoServerError", "E11000 duplicate key error index: " ++ index⟩

/-- The error of `save()` when the document to update is no longer stored. -/
def documentNotFoundError : JsError :=
  ⟨"DocumentNotFoundError", "No document found for query"⟩

/-- The validators of `progressSchema` on the counts: `min: 0`. -/
def validateCounts (solved total : Int) : Option JsError :=
  if solved < 0 then some (validationError "problemsSolved")
  else if total < 0 then some (validationError "totalProblems")
  else none

/-- The validators run when a new document is saved: `platform` is required (the
empty string does not satisfy `required`), the counts have `min: 0`. -/
def validateNew (doc : Progress) : Option JsError :=
  if doc.platform = "" then some (validationError "platform")
  else validateCounts doc.problemsSolved doc.totalProblems

/-- The insert behind `save()` of a new document: the `_id` index and the compound
unique index on `userId` and `platform` reject duplicates. -/
def insertOne (doc : Progress) (store : List Progress) : Except JsError (List Progress) :=
  if store.any (fun d => d._id == doc._id) then .error (duplicateKeyError "_id_")
  else if store.any (sameKey doc.userId doc.platform) then
    .error (duplicateKeyError "userId_1_platform_1")
  else .ok (store ++ [doc])

/-- Set the three fields an upsert modifies on the first document with the given `_id`. -/
def setFields (_id : ObjectId) (solved total : Int) (now : Nat) : List Progress → List Progress
  | [] => []
  | d :: ds =>
    if d._id = _id then
      { d with problemsSolved := solved, totalProblems := total, lastUpdated := now } :: ds
    else d :: setFields _id solved total now ds

/-- The update behind `save()` of a loaded document. -/
def updateOne (_id : ObjectId) (solved total : Int) (now : Nat) (store : List Progress) :
    Except JsError (List Progress) :=
  if store.any (fun d => d._id == _id) then .ok (setFields _id solved total now store)
  else .error documentNotFoundError

/-- The operation `findOneAndDelete` with `_id` and `userId`: removes the first match. -/
def findOneAndDelete (_id userId : ObjectId) : List Progress → Option Progress × List Progress
  | [] => (none, [])
  | d :: ds =>
    if d._id = _id ∧ d.userId = userId then (some d, ds)
    else
      let r := findOneAndDelete _id userId ds
      (r.1, d :: r.2)

/-- Insert `d` into a list sorted by `lastUpdated` descending, before its ties. -/
def insertDesc (d : Progress) : List Progress → List Progress
  | [] => [d]
  | e :: es => if d.lastUpdated ≥ e.lastUpdated then d :: e :: es else e :: insertDesc d es

/-- The sort of the `lastUpdated` field with direction -1: most recent first. -/
def sortDesc : List Progress → List Progress
  | [] => []
  | d :: ds => insertDesc d (sortDesc ds)

/-! ## Progress routes (`routes/progress.js`) -/

/-- The JSON body of `POST /api/progress`; `none` is `undefined`. -/
structure UpsertBody where
  platform : Option String
  problemsSolved : Option Int
  totalProblems : Option Int
deriving DecidableEq, Repr

/-- What an upsert reads from its surroundings. -/
structure Env where
  /-- The value of `Date.now()`. -/
  now : Nat
  /-- The `_id` generated by `new Progress(...)`. -/
  newId : ObjectId
  /-- The failure thrown by the `findOne` call, if any. -/
  findFault : Option JsError
  /-- The failure thrown by the `save` call before it reaches the collection, if any. -/
  saveFault : Option JsError
  /-- The writes of other requests between the lookup and the save. -/
  between : List Progress → List Progress

/-- An environment with no failure and no concurrent writer. -/
def Env.quiet (now : Nat) (newId : ObjectId) : Env :=
  ⟨now, newId, none, none, id⟩

/-- A response sent before any storage call. -/
def reject (status : Nat) (message : String) (store : List Progress) : Outcome :=
  ⟨⟨status, .message message⟩, store, [], []⟩

/-- The `catch` block of a handler: log the error, send 500 with a fixed message
and `error.message`. -/
def internal (label message : String) (e : JsError) (store : List Progress)
    (ops : List StoreOp) : Outcome :=
  ⟨⟨500, .failure message e.message⟩, store, ops, [⟨label, e⟩]⟩

/-- The `catch` block of `POST /api/progress`. -/
def upsertFailed (e : JsError) (store : List Progress) (ops : List StoreOp) : Outcome :=
  internal "Add/Update progress error:" "Server error updating progress" e store ops

/-- The handler of `POST /api/progress`, after `authMiddleware` has set `req.userId`. -/
def postProgress (env : Env) (userId : ObjectId) (body : UpsertBody)
    (store : List Progress) : Outcome :=
  match body.platform, body.problemsSolved, body.totalProblems with
  | some platform, some solved, some total =>
    if platform = "" then
      reject 400 "Please provide platform, problemsSolved, and totalProblems" store
    else if solved < 0 ∨ total < 0 then
      reject 400 "Problems cannot be negative" store
    else if solved > total then
      reject 400 "Problems solved cannot exceed total problems" store
    else
      let key := jsTrim platform
      let lookup := StoreOp.findOne userId key
      match env.findFault with
      | some e => upsertFailed e store [lookup]
      | none =>
        let store1 := env.between store
        match findOne userId key store with
        | some found =>
          let doc : Progress :=
            { found with problemsSolved := solved, totalProblems := total,
                         lastUpdated := env.now }
          let ops := [lookup, StoreOp.update found._id]
          match validateCounts solved total, env.saveFault with
          | some e, _ => upsertFailed e store1 [lookup]
          | none, some e => upsertFailed e store1 ops
          | none, none =>
            match updateOne found._id solved total env.now store1 with
            | .error e => upsertFailed e store1 ops
            | .ok store2 =>
              ⟨⟨200, .saved doc "Progress updated successfully"⟩, store2, ops, []⟩
        | none =>
          let doc : Progress := ⟨env.newId, userId, key, solved, total, env.now⟩
          let ops := [lookup, StoreOp.insert doc]
          match validateNew doc, env.saveFault with
          | some e, _ => upsertFailed e store1 [lookup]
          | none, some e => upsertFailed e store1 ops
          | none, none =>
            match insertOne doc store1 with
            | .error e => upsertFailed e store1 ops
            | .ok store2 =>
              ⟨⟨200, .saved doc "Progress updated successfully"⟩, store2, ops, []⟩
  | _, _, _ => reject 400 "Please provide platform, problemsSolved, and totalProblems" store

/-- The handler of `GET /api/progress`; `fault` is the failure thrown by the query, if any. -/
def getProgress (fault : Option JsError) (userId : ObjectId) (store : List Progress) : Outcome :=
  match fault with
  | some e =>
    internal "Get progress error:" "Server error fetching progress" e store [.find userId]
  | none =>
    ⟨⟨200, .records (sortDesc (store.filter (fun d => d.userId == userId)))⟩, store,
      [.find userId], []⟩

/-- The handler of `DELETE /api/progress/:id`; `_id` is `req.params.id` cast to an
`ObjectId`, `fault` is the failure thrown by `findOneAndDelete`, if any. -/
def deleteProgress (fault : Option JsError) (userId _id : ObjectId)
    (store : List Progress) : Outcome :=
  match fault with
  | some e =>
    internal "Delete progress error:" "Server error deleting progress" e store
      [.findOneAndDelete _id userId]
  | none =>
    match findOneAndDelete _id userId store with
    | (none, _) =>
      ⟨⟨404, .message "Progress entry not found or unauthorized"⟩, store,
        [.findOneAndDelete _id userId], []⟩
    | (some _, store2) =>
      ⟨⟨200, .message "Progress deleted successfully"⟩, store2,
        [.findOneAndDelete _id userId], []⟩

/-! ## Authentication middleware (`middleware/auth.js`) -/

/-- The call `s.replace(pattern, replacement)` with a string pattern: the first
occurrence of the pattern, if there is one, is replaced. -/
def replaceFirst (pattern replacement : List Char) : List Char → List Char
  | [] => if pattern = [] then replacement else []
  | c :: cs =>
    if pattern.isPrefixOf (c :: cs) then replacement ++ (c :: cs).drop pattern.length
    else c :: replaceFirst pattern replacement cs

/-- The token read from the `Authorization` header; `none` is `undefined`. -/
def extractToken (header : Option String) : Option String :=
  header.map (fun h => ⟨replaceFirst "Bearer ".data [] h.data⟩)

/-- The payload `jwt.verify` returns. -/
structure Decoded where
  userId : ObjectId
deriving DecidableEq, Repr

/-- How `authMiddleware` ends: with a response of its own, or with the one call
`next()` after setting `req.userId`. -/
inductive AuthResult where
  | responded (response : Response)
  | next (userId : ObjectId)
deriving DecidableEq, Repr

/-- The middleware of `middleware/auth.js`; `jwtVerify` is `jwt.verify` with the
secret of the process. -/
def authMiddleware (jwtVerify : String → Except JsError Decoded)
    (header : Option String) : AuthResult :=
  match extractToken header with
  | none => .responded ⟨401, .message "No token provided, authorization denied"⟩
  | some token =>
    if token = "" then .responded ⟨401, .message "No token provided, authorization denied"⟩
    else
      match jwtVerify token with
      | .ok decoded => .next decoded.userId
      | .error _ => .responded ⟨401, .message "Token is not valid or has expired"⟩

/-- A route registered with `authMiddleware` in front of its handler. -/
def protectedRoute (jwtVerify : String → Except JsError Decoded) (header : Option String)
    (handler : ObjectId → List Progress → Outcome) (store : List Progress) : Outcome :=
  match authMiddleware jwtVerify header with
  | .responded r => ⟨r, store, [], []⟩
  | .next userId => handler userId store

/-- The route `GET /api/progress`. -/
def getRoute (jwtVerify : String → Except JsError Decoded) (fault : Option JsError)
    (header : Option String) (store : List Progress) : Outcome :=
  protectedRoute jwtVerify header (getProgress fault) store

/-- The route `POST /api/progress`. -/
def postRoute (jwtVerify : String → Except JsError Decoded) (env : Env)
    (header : Option String) (body : UpsertBody) (store : List Progress) : Outcome :=
  protectedRoute jwtVerify header (fun userId => postProgress env userId body) store

/-- The route `DELETE /api/progress/:id`. -/
def deleteRoute (jwtVerify : String → Except JsError Decoded) (fault : Option JsError)
    (header : Option String) (_id : ObjectId) (store : List Progress) : Outcome :=
  protectedRoute jwtVerify header (fun userId => deleteProgress fault userId _id) store

/-! ## Users and the auth routes (`models/User.js`, `routes/auth.js`) -/

/-- A document of the `User` collection; `password` holds the hash. -/
structure User where
  _id : ObjectId
  username : String
  email : String
  password : String
  createdAt : Nat
deriving DecidableEq, Repr

/-- What a request to the auth routes leaves behind. -/
structure AuthOutcome where
  response : Response
  users : List User
  log : List LogLine
deriving DecidableEq, Repr

/-- The `length` of a JavaScript string: UTF-16 code units. -/
def jsLength (s : String) : Nat :=
  (s.data.map (fun c => if c.toNat < 0x10000 then 1 else 2)).sum

/-- What the auth routes read from their surroundings. -/
structure AuthEnv where
  /-- The value of `Date.now()`. -/
  now : Nat
  /-- The `_id` generated by `new User(...)`. -/
  newId : ObjectId
  /-- The method `toLowerCase()` behind the `lowercase` option of the schema. -/
  toLowerCase : String → String
  /-- The call `bcrypt.hash(password, 10)`. -/
  hash : String → Except JsError String
  /-- The call `bcrypt.compare(candidate, stored)`. -/
  compare : String → String → Except JsError Bool
  /-- The call `jwt.sign` on the payload with this `userId`, expiring in seven days. -/
  sign : ObjectId → Except JsError String
  /-- The failure thrown by the `findOne` call, if any. -/
  findFault : Option JsError
  /-- The failure thrown by the insert behind `save`, if any. -/
  saveFault : Option JsError

/-- The setters of the `email` path (`lowercase`, `trim`), run in declaration order. -/
def emailSetter (env : AuthEnv) (email : String) : String := jsTrim (env.toLowerCase email)

/-- The `catch` block of the auth handlers. -/
def authInternal (label message : String) (e : JsError) (users : List User) : AuthOutcome :=
  ⟨⟨500, .failure message e.message⟩, users, [⟨label, e⟩]⟩

/-- The JSON body of `POST /api/auth/login`; `none` is `undefined`. -/
structure LoginBody where
  email : Option String
  password : Option String
deriving DecidableEq, Repr

/-- The `catch` block of `POST /api/auth/login`. -/
def loginFailed (e : JsError) (users : List User) : AuthOutcome :=
  authInternal "Login error:" "Server error during login" e users

/-- The handler of `POST /api/auth/login`. -/
def login (env : AuthEnv) (body : LoginBody) (users : List User) : AuthOutcome :=
  match body.email, body.password with
  | some email, some password =>
    if email = "" ∨ password = "" then
      ⟨⟨400, .message "Please provide email and password"⟩, users, []⟩
    else
      match env.findFault with
      | some e => loginFailed e users
      | none =>
        match users.find? (fun u => u.email == emailSetter env email) with
        | none => ⟨⟨400, .message "Invalid credentials"⟩, users, []⟩
        | some user =>
          match env.compare password user.password with
          | .error e => loginFailed e users
          | .ok false => ⟨⟨400, .message "Invalid credentials"⟩, users, []⟩
          | .ok true =>
            match env.sign user._id with
            | .error e => loginFailed e users
            | .ok token =>
              ⟨⟨200, .session token user._id user.username "Login successful"⟩, users, []⟩
  | _, _ => ⟨⟨400, .message "Please provide email and password"⟩, users, []⟩

/-- The JSON body of `POST /api/auth/register`; `none` is `undefined`. -/
structure RegisterBody where
  username : Option String
  email : Option String
  password : Option String
deriving DecidableEq, Repr

/-- The error Mongoose throws when a validator of `userSchema` rejects a path. -/
def userValidationError (path : String) : JsError :=
  ⟨"ValidationError", "User validation failed: " ++ path⟩

/-- The validators of `userSchema`, run by `save` before the hashing hook. -/
def validateUser (u : User) : Option JsError :=
  if u.username = "" ∨ jsLength u.username < 3 then some (userValidationError "username")
  else if u.email = "" then some (userValidationError "email")
  else if u.password = "" ∨ jsLength u.password < 6 then some (userValidationError "password")
  else none

/-- The insert behind `save()` of a new user: `_id`, `username` and `email` are unique. -/
def insertUser (u : User) (users : List User) : Except JsError (List User) :=
  if users.any (fun v => v._id == u._id) then .error (duplicateKeyError "_id_")
  else if users.any (fun v => v.username == u.username) then
    .error (duplicateKeyError "username_1")
  else if users.any (fun v => v.email == u.email) then .error (duplicateKeyError "email_1")
  else .ok (users ++ [u])

/-- The `catch` block of `POST /api/auth/register`. -/
def registerFailed (e : JsError) (users : List User) : AuthOutcome :=
  authInternal "Register error:" "Server error during registration" e users

/-- The handler of `POST /api/auth/register`. -/
def register (env : AuthEnv) (body : RegisterBody) (users : List User) : AuthOutcome :=
  match body.username, body.email, body.password with
  | some username, some email, some password =>
    if username = "" ∨ email = "" ∨ password = "" then
      ⟨⟨400, .message "Please provide all required fields"⟩, users, []⟩
    else
      match env.findFault with
      | some e => registerFailed e users
      | none =>
        match users.find? (fun u => u.email == emailSetter env email ||
            u.username == jsTrim username) with
        | some _ =>
          ⟨⟨400, .message "User with this email or username already exists"⟩, users, []⟩
        | none =>
          let user : User := ⟨env.newId, jsTrim username, emailSetter env email, password, env.now⟩
          match validateUser user with
          | some e => registerFailed e users
          | none =>
            match env.hash password with
            | .error e => registerFailed e users
            | .ok hashed =>
              match env.saveFault with
              | some e => registerFailed e users
              | none =>
                match insertUser { user with password := hashed } users with
                | .error e => registerFailed e users
                | .ok users2 =>
                  match env.sign user._id with
                  | .error e => registerFailed e users2
                  | .ok token =>
                    ⟨⟨201, .session token user._id user.username "Registration successful"⟩,
                      users2, []⟩
  | _, _, _ => ⟨⟨400, .message "Please provide all required fields"⟩, users, []⟩

/-! ## Sequences of calls and the examples used below -/

/-- One `POST /api/progress` of a sequence of calls with no failure and no concurrent
writer: the clock and generated `_id` it meets, and the three fields of its body. -/
structure UpsertCall where
  now : Nat
  newId : ObjectId
  platform : String
  solved : Int
  total : Int
deriving DecidableEq, Repr

/-- The surroundings of a call of the sequence. -/
def UpsertCall.env (c : UpsertCall) : Env := Env.quiet c.now c.newId

/-- The body of a call of the sequence. -/
def UpsertCall.body (c : UpsertCall) : UpsertBody := ⟨some c.platform, some c.solved, some c.total⟩

/-- Calls handled one after the other by one user: the responses in order, and the
collection after the last call. -/
def postAll (userId : ObjectId) : List UpsertCall → List Progress → List Response × List Progress
  | [], store => ([], store)
  | c :: cs, store =>
    let o := postProgress c.env userId c.body store
    let rest := postAll userId cs o.store
    (o.response :: rest.1, rest.2)

/-- The `_id` of the record a first call for this user and platform works on: that of
the record it finds, else the one it generates. -/
def firstId (userId : ObjectId) (platform : String) (store : List Progress)
    (c : UpsertCall) : ObjectId :=
  match findOne userId platform store with
  | some r => r._id
  | none => c.newId

/-- The `lastUpdated` of the record in the body of a successful upsert. -/
def savedAt (r : Response) : Option Nat :=
  match r.body with
  | .saved progress _ => some progress.lastUpdated
  | _ => none

/-- The verifier used in the examples: it accepts the one token `"tok"`, issued to user 7. -/
def exampleVerify (token : String) : Except JsError Decoded :=
  if token = "tok" then .ok ⟨7⟩ else .error ⟨"JsonWebTokenError", "jwt malformed"⟩

/-- Surroundings of the auth routes used in the examples: the stored hash of a password
is the password followed by `"#"`, the token of a user is `"tok"`, and the `findOne`
call throws the given failure, if any. -/
def exampleAuthEnv (findFault : Option JsError) : AuthEnv :=
  ⟨50, 3, fun s => s, fun pw => .ok (pw ++ "#"),
    fun candidate stored => .ok (decide (candidate ++ "#" = stored)),
    fun _ => .ok "tok", findFault, none⟩

/-- The first call of the example sequence: 10 of 50 on LeetCode. -/
def firstCall : UpsertCall := ⟨100, 1, "LeetCode", 10, 50⟩

/-- The second call of the example sequence: 20 of 50, the platform padded with spaces. -/
def secondCall : UpsertCall := ⟨200, 2, " LeetCode ", 20, 50⟩

/-- An upsert whose lookup runs before, and whose save runs after, the insert of a
concurrent request for the same user and platform. -/
def raceEnv : Env :=
  ⟨10, 2, none, none, fun store => store ++ [⟨9, 7, "LeetCode", 3, 4, 8⟩]⟩

/-! ## Client request interceptor (`frontend/src/api.js`) -/

/-- The request interceptor of the client, on the `Authorization` header of the request
configuration: `token` is the value of `localStorage.getItem('token')` (`none` is
`null`); a non-empty token sets the header to `Bearer ` followed by the token. -/
def requestInterceptor (token : Option String) (authorization : Option String) :
    Option String :=
  match token with
  | some t => if t = "" then authorization else some ("Bearer " ++ t)
  | none => authorization

/-- Lower case on the letters `A` to `Z`, the `toLowerCase()` of the examples. -/
def asciiLower (s : String) : String := ⟨s.data.map Char.toLower⟩

/-- The surroundings of `exampleAuthEnv` with `asciiLower` for `toLowerCase()`. -/
def caseEnv : AuthEnv :=
  { exampleAuthEnv none with toLowerCase := asciiLower }

/-! # Theorems -/

/-! ## Upsert: sequences of calls -/

theorem jsTrim_ne_empty (platform : String) (h : jsTrim platform ≠ "") : platform ≠ "" := by
  intro he
  apply h
  rw [he]
  rfl

theorem find?_of_filter_singleton (p : Progress → Bool) (r : Progress) (l : List Progress)
    (h : l.filter p = [r]) : l.find? p = some r := by
  induction l with
  | nil => simp at h
  | cons d ds ih =>
    by_cases hd : p d = true
    · rw [List.filter_cons_of_pos hd] at h
      rw [List.find?_cons_of_pos _ hd]
      exact congrArg some (List.cons.inj h).1
    · rw [List.filter_cons_of_neg hd] at h
      rw [List.find?_cons_of_neg _ hd]
      exact ih h

theorem filter_singleton_of_find? (userId : ObjectId) (platform : String) (r : Progress)
    (store : List Progress)
    (hkeys : store.Pairwise (fun x y => ¬ (x.userId = y.userId ∧ x.platform = y.platform)))
    (h : findOne userId platform store = some r) :
    store.filter (sameKey userId platform) = [r] := by
  induction store with
  | nil => simp [findOne] at h
  | cons d ds ih =>
    rw [List.pairwise_cons] at hkeys
    by_cases hd : sameKey userId platform d = true
    · rw [findOne, List.find?_cons_of_pos _ hd] at h
      rw [List.filter_cons_of_pos hd]
      have hnil : ds.filter (sameKey userId platform) = [] := by
        rw [List.filter_eq_nil_iff]
        intro e he hke
        simp only [sameKey, Bool.and_eq_true, beq_iff_eq] at hd hke
        exact hkeys.1 e he ⟨hd.1.trans hke.1.symm, hd.2.trans hke.2.symm⟩
      rw [hnil]
      exact congrArg (fun x => [x]) (Option.some.inj h)
    · rw [findOne, List.find?_cons_of_neg _ hd] at h
      rw [List.filter_cons_of_neg hd]
      exact ih hkeys.2 h

theorem map_id_setFields (_id : ObjectId) (solved total : Int) (now : Nat)
    (store : List Progress) :
    (setFields _id solved total now store).map Progress._id = store.map Progress._id := by
  induction store with
  | nil => rfl
  | cons d ds ih =>
    by_cases hd : d._id = _id
    · simp only [setFields, if_pos hd, List.map_cons]
    · simp only [setFields, if_neg hd, List.map_cons, ih]

theorem filter_setFields (userId : ObjectId) (platform : String) (r : Progress)
    (solved total : Int) (now : Nat) (store : List Progress)
    (hids : (store.map Progress._id).Nodup)
    (h : store.filter (sameKey userId platform) = [r]) :
    (setFields r._id solved total now store).filter (sameKey userId platform)
      = [⟨r._id, userId, platform, solved, total, now⟩] := by
  induction store with
  | nil => simp at h
  | cons d ds ih =>
    rw [List.map_cons, List.nodup_cons] at hids
    have hrmem : r ∈ d :: ds := by
      have : r ∈ (d :: ds).filter (sameKey userId platform) := by rw [h]; exact List.mem_singleton_self r
      exact (List.mem_filter.mp this).1
    by_cases hd : d._id = r._id
    · have hdr : d = r := by
        rcases List.mem_cons.mp hrmem with hm | hm
        · exact hm.symm
        · exact absurd (hd ▸ List.mem_map_of_mem Progress._id hm) hids.1
      subst hdr
      have hkd : sameKey userId platform d = true := by
        have : d ∈ (d :: ds).filter (sameKey userId platform) := by rw [h]; exact List.mem_singleton_self d
        exact (List.mem_filter.mp this).2
      rw [List.filter_cons_of_pos hkd] at h
      have hnil : ds.filter (sameKey userId platform) = [] := (List.cons.inj h).2
      have hk := hkd
      simp only [sameKey, Bool.and_eq_true, beq_iff_eq] at hk
      have hk2 : sameKey userId platform
          { d with problemsSolved := solved, totalProblems := total, lastUpdated := now } = true := hkd
      simp only [setFields, if_true]
      rw [List.filter_cons_of_pos hk2, hnil, ← hk.1, ← hk.2]
    · have hkd : ¬ sameKey userId platform d = true := by
        intro hkd
        rw [List.filter_cons_of_pos hkd] at h
        exact hd (congrArg Progress._id (List.cons.inj h).1)
      rw [List.filter_cons_of_neg hkd] at h
      simp only [setFields, if_neg hd]
      rw [List.filter_cons_of_neg hkd]
      exact ih hids.2 h

/-- A valid call that finds no record inserts one. -/
theorem postProgress_inserts (c : UpsertCall) (userId : ObjectId) (store : List Progress)
    (hplatform : jsTrim c.platform ≠ "") (hsolved : 0 ≤ c.solved) (htotal : c.solved ≤ c.total)
    (hlookup : findOne userId (jsTrim c.platform) store = none)
    (hfresh : ∀ d ∈ store, d._id ≠ c.newId) :
    (postProgress c.env userId c.body store).response
        = ⟨200, .saved ⟨c.newId, userId, jsTrim c.platform, c.solved, c.total, c.now⟩
            "Progress updated successfully"⟩ ∧
      (postProgress c.env userId c.body store).store
        = store ++ [⟨c.newId, userId, jsTrim c.platform, c.solved, c.total, c.now⟩] := by
  have hne := jsTrim_ne_empty c.platform hplatform
  have hs : ¬ (c.solved < 0 ∨ c.total < 0) := by omega
  have ht : ¬ (c.solved > c.total) := by omega
  have h1 : ¬ c.solved < 0 := by omega
  have h2 : ¬ c.total < 0 := by omega
  have hv : validateNew ⟨c.newId, userId, jsTrim c.platform, c.solved, c.total, c.now⟩ = none := by
    simp [validateNew, validateCounts, hplatform, h1, h2]
  have hins : insertOne ⟨c.newId, userId, jsTrim c.platform, c.solved, c.total, c.now⟩ store
      = .ok (store ++ [⟨c.newId, userId, jsTrim c.platform, c.solved, c.total, c.now⟩]) := by
    have ha : store.any (fun d => d._id == c.newId) = false := by
      rw [List.any_eq_false]
      intro d hd
      simpa using hfresh d hd
    have hb : store.any (sameKey userId (jsTrim c.platform)) = false := by
      rw [List.any_eq_false]
      intro d hd
      exact (List.find?_eq_none.mp hlookup) d hd
    simp only [insertOne, ha, hb, Bool.false_eq_true, if_false]
  simp only [postProgress, UpsertCall.env, UpsertCall.body, Env.quiet, if_neg hne, if_neg hs,
    if_neg ht, hlookup, hv, id, hins, and_self]

/-- A valid call that finds a record updates it in place. -/
theorem postProgress_updates (c : UpsertCall) (userId : ObjectId) (store : List Progress)
    (r : Progress)
    (hplatform : jsTrim c.platform ≠ "") (hsolved : 0 ≤ c.solved) (htotal : c.solved ≤ c.total)
    (hlookup : findOne userId (jsTrim c.platform) store = some r) :
    (postProgress c.env userId c.body store).response
        = ⟨200, .saved ⟨r._id, userId, jsTrim c.platform, c.solved, c.total, c.now⟩
            "Progress updated successfully"⟩ ∧
      (postProgress c.env userId c.body store).store
        = setFields r._id c.solved c.total c.now store := by
  have hne := jsTrim_ne_empty c.platform hplatform
  have hs : ¬ (c.solved < 0 ∨ c.total < 0) := by omega
  have ht : ¬ (c.solved > c.total) := by omega
  have h1 : ¬ c.solved < 0 := by omega
  have h2 : ¬ c.total < 0 := by omega
  have hv : validateCounts c.solved c.total = none := by
    simp [validateCounts, h1, h2]
  have hk := List.find?_some hlookup
  simp only [sameKey, Bool.and_eq_true, beq_iff_eq] at hk
  have hupd : updateOne r._id c.solved c.total c.now store
      = .ok (setFields r._id c.solved c.total c.now store) := by
    have ha : store.any (fun d => d._id == r._id) = true := by
      rw [List.any_eq_true]
      exact ⟨r, List.mem_of_find?_eq_some hlookup, by simp⟩
    simp only [updateOne, ha, if_true]
  simp only [postProgress, UpsertCall.env, UpsertCall.body, Env.quiet, if_neg hne, if_neg hs,
    if_neg ht, hlookup, hv, id, hupd, hk.1, hk.2, and_self]

theorem postAll_updates (userId : ObjectId) (p : String) (hp : p ≠ "") (cs : List UpsertCall) :
    ∀ (store : List Progress) (r : Progress),
      (store.map Progress._id).Nodup →
      store.filter (sameKey userId p) = [r] →
      (∀ call ∈ cs, jsTrim call.platform = p ∧ 0 ≤ call.solved ∧ call.solved ≤ call.total) →
      (postAll userId cs store).1
          = cs.map (fun call => ⟨200, .saved
              ⟨r._id, userId, p, call.solved, call.total, call.now⟩
              "Progress updated successfully"⟩) ∧
        (postAll userId cs store).2.filter (sameKey userId p)
          = [cs.foldl (fun acc call =>
              ⟨acc._id, userId, p, call.solved, call.total, call.now⟩) r] := by
  induction cs with
  | nil =>
    intro store r _ hfilter _
    exact ⟨rfl, hfilter⟩
  | cons c cs ih =>
    intro store r hids hfilter hcalls
    obtain ⟨hcp, hc0, hc1⟩ := hcalls c (List.mem_cons_self c cs)
    have hlookup : findOne userId (jsTrim c.platform) store = some r := by
      rw [hcp]
      exact find?_of_filter_singleton _ r store hfilter
    have hstep := postProgress_updates c userId store r (by rw [hcp]; exact hp) hc0 hc1 hlookup
    have hids2 : ((setFields r._id c.solved c.total c.now store).map Progress._id).Nodup := by
      rw [map_id_setFields]
      exact hids
    have hfilter2 := filter_setFields userId p r c.solved c.total c.now store hids hfilter
    have hrest := ih (setFields r._id c.solved c.total c.now store)
      ⟨r._id, userId, p, c.solved, c.total, c.now⟩ hids2 hfilter2
      (fun call hcall => hcalls call (List.mem_cons_of_mem c hcall))
    simp only [postAll, hstep.1, hstep.2, hrest.1, hrest.2, hcp, List.map_cons, List.foldl_cons,
      and_self]

theorem foldl_last_call (userId : ObjectId) (p : String) (cs : List UpsertCall) :
    ∀ (c : UpsertCall) (r : Progress),
      (c :: cs).foldl (fun acc call =>
          (⟨acc._id, userId, p, call.solved, call.total, call.now⟩ : Progress)) r
        = ⟨r._id, userId, p, ((c :: cs).getLast (List.cons_ne_nil c cs)).solved,
            ((c :: cs).getLast (List.cons_ne_nil c cs)).total,
            ((c :: cs).getLast (List.cons_ne_nil c cs)).now⟩ := by
  induction cs with
  | nil => intro c r; rfl
  | cons d ds ih =>
    intro c r
    rw [List.foldl_cons, ih d, List.getLast_cons (List.cons_ne_nil d ds)]

/-- C1, amended. Start from a collection with unique `_id`s and at most one record per
user and platform.  Let one user make a non-empty sequence of calls to
`POST /api/progress`, one after the other, with no storage failure; the platforms all
trim to the same non-empty string `p`, the counts satisfy `0 ≤ solved ≤ total`, and the
`_id` generated by the first call is not in use.  Then every call is answered 200 with a
record of one and the same `_id` (that of the record the first call finds, else the one
it generates) carrying the counts and clock of that call; the collection afterwards
holds exactly one record for the user and `p`, with that `_id` and the counts and clock
of the last call; and when the clock is non-decreasing along the calls so is the
`lastUpdated` of the record along the responses. -/
theorem postAll_same_platform_one_record (userId : ObjectId) (p : String)
    (store : List Progress) (c : UpsertCall) (cs : List UpsertCall)
    (hids : (store.map Progress._id).Nodup)
    (hkeys : store.Pairwise (fun x y => ¬ (x.userId = y.userId ∧ x.platform = y.platform)))
    (hp : p ≠ "")
    (hcalls : ∀ call ∈ c :: cs,
      jsTrim call.platform = p ∧ 0 ≤ call.solved ∧ call.solved ≤ call.total)
    (hfresh : ∀ d ∈ store, d._id ≠ c.newId)
    (hclock : ((c :: cs).map UpsertCall.now).Chain' (· ≤ ·)) :
    (postAll userId (c :: cs) store).1
        = (c :: cs).map (fun call => ⟨200, .saved
            ⟨firstId userId p store c, userId, p, call.solved, call.total, call.now⟩
            "Progress updated successfully"⟩) ∧
      (postAll userId (c :: cs) store).2.filter (sameKey userId p)
        = [⟨firstId userId p store c, userId, p,
            ((c :: cs).getLast (List.cons_ne_nil c cs)).solved,
            ((c :: cs).getLast (List.cons_ne_nil c cs)).total,
            ((c :: cs).getLast (List.cons_ne_nil c cs)).now⟩] ∧
      ((postAll userId (c :: cs) store).1.filterMap savedAt).Chain' (· ≤ ·) := by
  obtain ⟨hcp, hc0, hc1⟩ := hcalls c (List.mem_cons_self c cs)
  have hcs : ∀ call ∈ cs,
      jsTrim call.platform = p ∧ 0 ≤ call.solved ∧ call.solved ≤ call.total :=
    fun call hcall => hcalls call (List.mem_cons_of_mem c hcall)
  have hplat : jsTrim c.platform ≠ "" := by rw [hcp]; exact hp
  -- the first call: its response, and the collection it leaves
  have hfirst : (postProgress c.env userId c.body store).response
        = ⟨200, .saved ⟨firstId userId p store c, userId, p, c.solved, c.total, c.now⟩
            "Progress updated successfully"⟩ ∧
      ((postProgress c.env userId c.body store).store.map Progress._id).Nodup ∧
      (postProgress c.env userId c.body store).store.filter (sameKey userId p)
        = [⟨firstId userId p store c, userId, p, c.solved, c.total, c.now⟩] := by
    cases hlookup : findOne userId p store with
    | none =>
      have hstep := postProgress_inserts c userId store hplat hc0 hc1 (by rw [hcp]; exact hlookup)
        hfresh
      have hid : firstId userId p store c = c.newId := by simp only [firstId, hlookup]
      rw [hstep.1, hstep.2, hid, hcp]
      refine ⟨rfl, ?_, ?_⟩
      · rw [List.map_append, List.map_singleton]
        refine List.Nodup.append hids (List.nodup_singleton _) ?_
        rw [List.disjoint_singleton]
        intro hmem
        obtain ⟨d, hd, hdid⟩ := List.mem_map.mp hmem
        exact hfresh d hd hdid
      · have hnil : store.filter (sameKey userId p) = [] := by
          rw [List.filter_eq_nil_iff]
          exact List.find?_eq_none.mp hlookup
        have hk : sameKey userId p ⟨c.newId, userId, p, c.solved, c.total, c.now⟩ = true := by
          simp [sameKey]
        rw [List.filter_append, hnil, List.nil_append, List.filter_cons_of_pos hk,
          List.filter_nil]
    | some r =>
      have hstep := postProgress_updates c userId store r hplat hc0 hc1 (by rw [hcp]; exact hlookup)
      have hid : firstId userId p store c = r._id := by simp only [firstId, hlookup]
      rw [hstep.1, hstep.2, hid, hcp]
      refine ⟨rfl, ?_, ?_⟩
      · rw [map_id_setFields]
        exact hids
      · exact filter_setFields userId p r c.solved c.total c.now store hids
          (filter_singleton_of_find? userId p r store hkeys hlookup)
  have hrest := postAll_updates userId p hp cs (postProgress c.env userId c.body store).store
    ⟨firstId userId p store c, userId, p, c.solved, c.total, c.now⟩ hfirst.2.1 hfirst.2.2 hcs
  have hresp : (postAll userId (c :: cs) store).1
      = (c :: cs).map (fun call => ⟨200, .saved
          ⟨firstId userId p store c, userId, p, call.solved, call.total, call.now⟩
          "Progress updated successfully"⟩) := by
    simp only [postAll, hfirst.1, hrest.1, List.map_cons]
  refine ⟨hresp, ?_, ?_⟩
  · have hfold := foldl_last_call userId p cs c
      ⟨firstId userId p store c, userId, p, c.solved, c.total, c.now⟩
    rw [List.foldl_cons] at hfold
    simp only [postAll, hrest.2]
    exact congrArg (fun x => [x]) hfold
  · rw [hresp, List.filterMap_map]
    have hfm : List.filterMap (savedAt ∘ fun call : UpsertCall => (⟨200, .saved
          ⟨firstId userId p store c, userId, p, call.solved, call.total, call.now⟩
          "Progress updated successfully"⟩ : Response)) (c :: cs)
        = (c :: cs).map UpsertCall.now := by
      rw [← List.filterMap_eq_map]
      rfl
    rw [hfm]
    exact hclock

/-- C1, refuted. One call with the empty platform and valid counts on the empty
collection is answered 400, and the collection afterwards holds no record for the user
and the trimmed platform. -/
theorem postAll_empty_platform_stores_nothing :
    (postAll 7 [⟨100, 1, "", 10, 50⟩] []).1
        = [⟨400, .message "Please provide platform, problemsSolved, and totalProblems"⟩] ∧
      (postAll 7 [⟨100, 1, "", 10, 50⟩] []).2.filter (sameKey 7 (jsTrim "")) = [] := by
  decide

/-- C1, amended, at the two calls of the example on the empty collection: one record,
20 of 50, with the `_id` of the first call. -/
theorem postAll_same_platform_one_record_witness :
    (postAll 7 [firstCall, secondCall] []).1
        = [⟨200, .saved ⟨1, 7, "LeetCode", 10, 50, 100⟩ "Progress updated successfully"⟩,
           ⟨200, .saved ⟨1, 7, "LeetCode", 20, 50, 200⟩ "Progress updated successfully"⟩] ∧
      (postAll 7 [firstCall, secondCall] []).2.filter (sameKey 7 "LeetCode")
        = [⟨1, 7, "LeetCode", 20, 50, 200⟩] ∧
      ((postAll 7 [firstCall, secondCall] []).1.filterMap savedAt).Chain' (· ≤ ·) :=
  postAll_same_platform_one_record 7 "LeetCode" [] firstCall [secondCall] (by decide)
    (by decide) (by decide) (by decide) (by decide) (by simp [firstCall, secondCall])

/-! ## Upsert: invalid input -/
/-- C2. An authenticated `POST /api/progress` with a non-empty platform and counts that
break the rule (a negative count, or more solved than total) is answered 400, the
collection is left as it was, and no storage operation is issued. -/
theorem postRoute_invalid_counts_rejected (jwtVerify : String → Except JsError Decoded)
    (env : Env) (header : Option String) (userId : ObjectId) (platform : String)
    (solved total : Int) (store : List Progress)
    (hauth : authMiddleware jwtVerify header = .next userId)
    (hplatform : platform ≠ "")
    (hcounts : solved < 0 ∨ total < 0 ∨ solved > total) :
    (postRoute jwtVerify env header ⟨some platform, some solved, some total⟩ store).response.status
        = 400 ∧
      (postRoute jwtVerify env header ⟨some platform, some solved, some total⟩ store).store
        = store ∧
      (postRoute jwtVerify env header ⟨some platform, some solved, some total⟩ store).ops
        = [] := by
  simp only [postRoute, protectedRoute, hauth, postProgress, if_neg hplatform]
  by_cases hneg : solved < 0 ∨ total < 0
  · simp [hneg, reject]
  · have hgt : solved > total := by
      rcases hcounts with h | h | h
      · exact absurd (Or.inl h) hneg
      · exact absurd (Or.inr h) hneg
      · exact h
    simp [hneg, hgt, reject]

/-- C2, at solved = 5 and total = 3 on a collection holding one record. -/
theorem postRoute_invalid_counts_rejected_witness :
    (postRoute exampleVerify (Env.quiet 10 2) (some "Bearer tok")
        ⟨some "LeetCode", some 5, some 3⟩ [⟨1, 7, "LeetCode", 1, 2, 5⟩]).response.status = 400 ∧
      (postRoute exampleVerify (Env.quiet 10 2) (some "Bearer tok")
        ⟨some "LeetCode", some 5, some 3⟩ [⟨1, 7, "LeetCode", 1, 2, 5⟩]).store
        = [⟨1, 7, "LeetCode", 1, 2, 5⟩] ∧
      (postRoute exampleVerify (Env.quiet 10 2) (some "Bearer tok")
        ⟨some "LeetCode", some 5, some 3⟩ [⟨1, 7, "LeetCode", 1, 2, 5⟩]).ops = [] :=
  postRoute_invalid_counts_rejected exampleVerify (Env.quiet 10 2) (some "Bearer tok") 7
    "LeetCode" 5 3 [⟨1, 7, "LeetCode", 1, 2, 5⟩] (by decide) (by decide) (by decide)

/-- C8. A platform of three spaces with valid counts passes the check of the handler
(the string is not empty), the lookup is issued with the empty platform, and the
`required` validator of the schema rejects the new document: the response is 500. -/
theorem postRoute_blank_platform_is_500 :
    (postRoute exampleVerify (Env.quiet 10 2) (some "Bearer tok")
        ⟨some "   ", some 1, some 2⟩ []).response
        = ⟨500, .failure "Server error updating progress"
            "Progress validation failed: platform"⟩ ∧
      (postRoute exampleVerify (Env.quiet 10 2) (some "Bearer tok")
        ⟨some "   ", some 1, some 2⟩ []).ops = [.findOne 7 ""] := by
  decide

/-! ## Delete -/

theorem findOneAndDelete_none (_id userId : ObjectId) (store : List Progress)
    (h : ∀ d ∈ store, ¬ (d._id = _id ∧ d.userId = userId)) :
    findOneAndDelete _id userId store = (none, store) := by
  induction store with
  | nil => rfl
  | cons d ds ih =>
    have hd := h d (List.mem_cons_self d ds)
    have hds := ih (fun e he => h e (List.mem_cons_of_mem d he))
    simp only [findOneAndDelete, if_neg hd, hds]

theorem findOneAndDelete_owner (r : Progress) (store : List Progress)
    (hids : (store.map Progress._id).Nodup) (hr : r ∈ store) :
    findOneAndDelete r._id r.userId store = (some r, store.erase r) := by
  induction store with
  | nil => cases hr
  | cons d ds ih =>
    rw [List.map_cons, List.nodup_cons] at hids
    by_cases hd : d = r
    · subst hd
      simp [findOneAndDelete]
    · have hmem : r ∈ ds := by
        rcases List.mem_cons.mp hr with h | h
        · exact absurd h.symm hd
        · exact h
      have hid : ¬ (d._id = r._id ∧ d.userId = r.userId) := by
        rintro ⟨h, _⟩
        apply hids.1
        rw [h]
        exact List.mem_map_of_mem Progress._id hmem
      have hbeq : (d == r) = false := by simpa using hd
      simp only [findOneAndDelete, if_neg hid, ih hids.2 hmem, List.erase_cons, hbeq]
      rfl

/-- C3. With unique `_id`s in the collection, a user A deleting the record `r` of another
user B gets the response A gets for an `_id` no record has, whatever the storage call
does; when the call does not fail that response is 404 and the collection is unchanged,
with `r` still in it.  The owner deleting `r` gets 200 and the collection loses
exactly `r`. -/
theorem deleteProgress_masks_other_owner (fault : Option JsError) (a b : ObjectId)
    (store : List Progress) (r : Progress) (absent : ObjectId)
    (hab : a ≠ b) (hr : r ∈ store) (howner : r.userId = b)
    (hids : (store.map Progress._id).Nodup)
    (habsent : ∀ d ∈ store, d._id ≠ absent) :
    (deleteProgress fault a r._id store).response
        = (deleteProgress fault a absent store).response ∧
      (deleteProgress none a r._id store).response
        = ⟨404, .message "Progress entry not found or unauthorized"⟩ ∧
      (deleteProgress none a r._id store).store = store ∧
      r ∈ (deleteProgress none a r._id store).store ∧
      (deleteProgress none b r._id store).response.status = 200 ∧
      (deleteProgress none b r._id store).store = store.erase r ∧
      r ∉ (deleteProgress none b r._id store).store := by
  have hnodup : store.Nodup := List.Nodup.of_map _ hids
  have h1 : findOneAndDelete r._id a store = (none, store) := by
    apply findOneAndDelete_none
    rintro d hd ⟨hid, hu⟩
    have hdr : d = r := List.inj_on_of_nodup_map hids hd hr hid
    rw [hdr, howner] at hu
    exact hab hu.symm
  have h2 : findOneAndDelete absent a store = (none, store) := by
    apply findOneAndDelete_none
    rintro d hd ⟨hid, _⟩
    exact habsent d hd hid
  have h3 : findOneAndDelete r._id b store = (some r, store.erase r) := by
    rw [← howner]
    exact findOneAndDelete_owner r store hids hr
  refine ⟨?_, ?_, ?_, ?_, ?_, ?_, ?_⟩
  · cases fault with
    | none => simp only [deleteProgress, h1, h2]
    | some e => rfl
  · simp only [deleteProgress, h1]
  · simp only [deleteProgress, h1]
  · simp only [deleteProgress, h1]
    exact hr
  · simp only [deleteProgress, h3]
  · simp only [deleteProgress, h3]
  · simp only [deleteProgress, h3]
    exact fun h => (List.Nodup.mem_erase_iff hnodup).mp h |>.1 rfl

/-- C3, on a collection of two users. -/
theorem deleteProgress_masks_other_owner_witness :
    (deleteProgress none 7 2 [⟨1, 7, "LeetCode", 1, 2, 5⟩, ⟨2, 8, "LeetCode", 3, 4, 6⟩]).response
        = (deleteProgress none 7 99
            [⟨1, 7, "LeetCode", 1, 2, 5⟩, ⟨2, 8, "LeetCode", 3, 4, 6⟩]).response ∧
      (deleteProgress none 8 2 [⟨1, 7, "LeetCode", 1, 2, 5⟩, ⟨2, 8, "LeetCode", 3, 4, 6⟩]).store
        = [⟨1, 7, "LeetCode", 1, 2, 5⟩] :=
  have h := deleteProgress_masks_other_owner none 7 8
    [⟨1, 7, "LeetCode", 1, 2, 5⟩, ⟨2, 8, "LeetCode", 3, 4, 6⟩] ⟨2, 8, "LeetCode", 3, 4, 6⟩ 99
    (by decide) (by decide) rfl (by decide) (by decide)
  ⟨h.1, h.2.2.2.2.2.1.trans (by decide)⟩

/-! ## List -/

theorem insertDesc_perm (d : Progress) (l : List Progress) :
    (insertDesc d l).Perm (d :: l) := by
  induction l with
  | nil => exact List.Perm.refl _
  | cons e es ih =>
    by_cases h : d.lastUpdated ≥ e.lastUpdated
    · simp only [insertDesc, if_pos h]
      exact List.Perm.refl _
    · simp only [insertDesc, if_neg h]
      exact ((List.Perm.cons e ih).trans (List.Perm.swap d e es))

theorem sortDesc_perm (l : List Progress) : (sortDesc l).Perm l := by
  induction l with
  | nil => exact List.Perm.refl _
  | cons d ds ih => exact (insertDesc_perm d (sortDesc ds)).trans (List.Perm.cons d ih)

theorem insertDesc_sorted (d : Progress) (l : List Progress)
    (hl : l.Pairwise (fun x y => x.lastUpdated ≥ y.lastUpdated)) :
    (insertDesc d l).Pairwise (fun x y => x.lastUpdated ≥ y.lastUpdated) := by
  induction l with
  | nil => exact List.pairwise_singleton _ d
  | cons e es ih =>
    rw [List.pairwise_cons] at hl
    by_cases h : d.lastUpdated ≥ e.lastUpdated
    · simp only [insertDesc, if_pos h]
      refine List.pairwise_cons.mpr ⟨?_, List.pairwise_cons.mpr hl⟩
      intro x hx
      rcases List.mem_cons.mp hx with hx | hx
      · rw [hx]; exact h
      · exact le_trans (hl.1 x hx) h
    · simp only [insertDesc, if_neg h]
      refine List.pairwise_cons.mpr ⟨?_, ih hl.2⟩
      intro x hx
      rcases List.mem_cons.mp ((insertDesc_perm d es).subset hx) with hx | hx
      · rw [hx]; omega
      · exact hl.1 x hx

theorem sortDesc_sorted (l : List Progress) :
    (sortDesc l).Pairwise (fun x y => x.lastUpdated ≥ y.lastUpdated) := by
  induction l with
  | nil => exact List.Pairwise.nil
  | cons d ds ih => exact insertDesc_sorted d (sortDesc ds) ih

/-- C4. For an authenticated user, `GET /api/progress` answers 200 with a list that is a
rearrangement of the stored records of that user (each of them, as often as stored, and
no record of another user), in which every record has a `lastUpdated` at least that of
every record after it, in particular of the next one. -/
theorem getRoute_lists_own_records_sorted (jwtVerify : String → Except JsError Decoded)
    (header : Option String) (userId : ObjectId) (store : List Progress)
    (hauth : authMiddleware jwtVerify header = .next userId) :
    ∃ listed : List Progress,
      (getRoute jwtVerify none header store).response = ⟨200, .records listed⟩ ∧
      listed.Perm (store.filter (fun d => d.userId == userId)) ∧
      (∀ d, d ∈ listed ↔ d ∈ store ∧ d.userId = userId) ∧
      listed.Pairwise (fun x y => x.lastUpdated ≥ y.lastUpdated) ∧
      listed.Chain' (fun x y => x.lastUpdated ≥ y.lastUpdated) ∧
      (getRoute jwtVerify none header store).store = store := by
  refine ⟨sortDesc (store.filter (fun d => d.userId == userId)), ?_, sortDesc_perm _, ?_,
    sortDesc_sorted _, (List.Pairwise.chain' (sortDesc_sorted _)), ?_⟩
  · simp only [getRoute, protectedRoute, hauth, getProgress]
  · intro d
    rw [(sortDesc_perm _).mem_iff, List.mem_filter]
    simp
  · simp only [getRoute, protectedRoute, hauth, getProgress]

/-- C4, on a collection of two users. -/
theorem getRoute_lists_own_records_sorted_witness :
    ∃ listed : List Progress,
      (getRoute exampleVerify none (some "Bearer tok")
        [⟨1, 7, "a", 1, 2, 5⟩, ⟨2, 8, "a", 1, 2, 6⟩, ⟨3, 7, "b", 1, 2, 9⟩]).response
        = ⟨200, .records listed⟩ ∧
      listed.Perm ([⟨1, 7, "a", 1, 2, 5⟩, ⟨2, 8, "a", 1, 2, 6⟩, ⟨3, 7, "b", 1, 2, 9⟩].filter
        (fun d => d.userId == 7)) ∧
      (∀ d, d ∈ listed ↔
        d ∈ [⟨1, 7, "a", 1, 2, 5⟩, ⟨2, 8, "a", 1, 2, 6⟩, ⟨3, 7, "b", 1, 2, 9⟩] ∧ d.userId = 7) ∧
      listed.Pairwise (fun x y => x.lastUpdated ≥ y.lastUpdated) ∧
      listed.Chain' (fun x y => x.lastUpdated ≥ y.lastUpdated) ∧
      (getRoute exampleVerify none (some "Bearer tok")
        [⟨1, 7, "a", 1, 2, 5⟩, ⟨2, 8, "a", 1, 2, 6⟩, ⟨3, 7, "b", 1, 2, 9⟩]).store
        = [⟨1, 7, "a", 1, 2, 5⟩, ⟨2, 8, "a", 1, 2, 6⟩, ⟨3, 7, "b", 1, 2, 9⟩] :=
  getRoute_lists_own_records_sorted exampleVerify (some "Bearer tok") 7
    [⟨1, 7, "a", 1, 2, 5⟩, ⟨2, 8, "a", 1, 2, 6⟩, ⟨3, 7, "b", 1, 2, 9⟩] (by decide)

/-! ## Authentication middleware -/

/-- C5. A header that is a valid token with no `Bearer ` in front is not rejected: the
replacement finds nothing to remove, the whole header is verified, and `next()` is
called for the user of the token. -/
theorem authMiddleware_accepts_token_without_bearer :
    extractToken (some "tok") = some "tok" ∧
      authMiddleware exampleVerify (some "tok") = .next 7 ∧
      (deleteRoute exampleVerify none (some "tok") 1 [⟨1, 7, "LeetCode", 1, 2, 5⟩]).response
        = ⟨200, .message "Progress deleted successfully"⟩ := by
  decide

/-- C6. The middleware calls `next()` exactly when a non-empty token is extracted from
the header and its verification succeeds, and then with the `userId` of the decoded
payload, so that the route runs its handler once for that user.  In every other case
(no header, an empty token, a verification that throws) it responds 401 itself, and a
protected route such as `DELETE /api/progress/:id` sends that response, issues no
storage operation and leaves the collection unchanged. -/
theorem authMiddleware_next_iff_verified (jwtVerify : String → Except JsError Decoded)
    (header : Option String) (fault : Option JsError) (_id : ObjectId)
    (store : List Progress) :
    (∀ userId, authMiddleware jwtVerify header = .next userId ↔
        ∃ token decoded, extractToken header = some token ∧ token ≠ "" ∧
          jwtVerify token = .ok decoded ∧ decoded.userId = userId) ∧
      (∀ userId handler, authMiddleware jwtVerify header = .next userId →
        protectedRoute jwtVerify header handler store = handler userId store) ∧
      ((∀ userId, authMiddleware jwtVerify header ≠ .next userId) →
        ∃ r, authMiddleware jwtVerify header = .responded r ∧ r.status = 401 ∧
          deleteRoute jwtVerify fault header _id store = ⟨r, store, [], []⟩) := by
  refine ⟨?_, ?_, ?_⟩
  · intro userId
    cases hx : extractToken header with
    | none => simp [authMiddleware, hx]
    | some token =>
      by_cases ht : token = ""
      · simp [authMiddleware, hx, ht]
      · cases hv : jwtVerify token with
        | error e => simp [authMiddleware, hx, ht, hv]
        | ok decoded => simp [authMiddleware, hx, ht, hv]
  · intro userId handler h
    simp only [protectedRoute, h]
  · intro h
    cases hr : authMiddleware jwtVerify header with
    | next userId => exact absurd hr (h userId)
    | responded r =>
      refine ⟨r, rfl, ?_, ?_⟩
      · revert hr
        simp only [authMiddleware]
        split
        · intro hr; cases hr; rfl
        · split
          · intro hr; cases hr; rfl
          · split
            · intro hr; cases hr
            · intro hr; cases hr; rfl
      · simp only [deleteRoute, protectedRoute, hr]

/-- C6, at a request with no header and at one with a garbled token. -/
theorem authMiddleware_next_iff_verified_witness :
    (deleteRoute exampleVerify none none 1 [⟨1, 7, "LeetCode", 1, 2, 5⟩]).response.status = 401 ∧
      (deleteRoute exampleVerify none none 1 [⟨1, 7, "LeetCode", 1, 2, 5⟩]).store
        = [⟨1, 7, "LeetCode", 1, 2, 5⟩] ∧
      (deleteRoute exampleVerify none (some "Bearer t0k") 1
        [⟨1, 7, "LeetCode", 1, 2, 5⟩]).response.status = 401 ∧
      (deleteRoute exampleVerify none (some "Bearer t0k") 1 [⟨1, 7, "LeetCode", 1, 2, 5⟩]).store
        = [⟨1, 7, "LeetCode", 1, 2, 5⟩] := by
  have h1 : authMiddleware exampleVerify none
      = .responded ⟨401, .message "No token provided, authorization denied"⟩ := by decide
  have h2 : authMiddleware exampleVerify (some "Bearer t0k")
      = .responded ⟨401, .message "Token is not valid or has expired"⟩ := by decide
  obtain ⟨r, _, hs, hd⟩ := (authMiddleware_next_iff_verified exampleVerify none none 1
    [⟨1, 7, "LeetCode", 1, 2, 5⟩]).2.2 (by intro userId h; rw [h1] at h; cases h)
  obtain ⟨r2, _, hs2, hd2⟩ := (authMiddleware_next_iff_verified exampleVerify
    (some "Bearer t0k") none 1 [⟨1, 7, "LeetCode", 1, 2, 5⟩]).2.2
    (by intro userId h; rw [h2] at h; cases h)
  rw [hd, hd2]
  exact ⟨hs, rfl, hs2, rfl⟩

/-! ## Login -/

/-- C7. A login with non-empty email and password for which no user has the email gets
the very response of a login for which a user has the email and the password does not
match: status 400 and the body with the message `Invalid credentials`. -/
theorem login_unknown_email_same_as_wrong_password (env : AuthEnv)
    (email1 password1 email2 password2 : String) (users1 users2 : List User) (user : User)
    (he1 : email1 ≠ "") (hp1 : password1 ≠ "") (he2 : email2 ≠ "") (hp2 : password2 ≠ "")
    (hfault : env.findFault = none)
    (hunknown : users1.find? (fun u => u.email == emailSetter env email1) = none)
    (hknown : users2.find? (fun u => u.email == emailSetter env email2) = some user)
    (hwrong : env.compare password2 user.password = .ok false) :
    (login env ⟨some email1, some password1⟩ users1).response
        = (login env ⟨some email2, some password2⟩ users2).response ∧
      (login env ⟨some email1, some password1⟩ users1).response
        = ⟨400, .message "Invalid credentials"⟩ := by
  have h1 : ¬ (email1 = "" ∨ password1 = "") := by
    rintro (h | h)
    · exact he1 h
    · exact hp1 h
  have h2 : ¬ (email2 = "" ∨ password2 = "") := by
    rintro (h | h)
    · exact he2 h
    · exact hp2 h
  simp only [login, if_neg h1, if_neg h2, hfault, hunknown, hknown, hwrong, and_self]

/-- C7, for one stored user: an unknown email against a wrong password. -/
theorem login_unknown_email_same_as_wrong_password_witness :
    (login (exampleAuthEnv none) ⟨some "b@x.com", some "secret1"⟩
        [⟨1, "alice", "a@x.com", "secret1#", 0⟩]).response
        = (login (exampleAuthEnv none) ⟨some "a@x.com", some "secret2"⟩
            [⟨1, "alice", "a@x.com", "secret1#", 0⟩]).response ∧
      (login (exampleAuthEnv none) ⟨some "b@x.com", some "secret1"⟩
        [⟨1, "alice", "a@x.com", "secret1#", 0⟩]).response
        = ⟨400, .message "Invalid credentials"⟩ :=
  login_unknown_email_same_as_wrong_password (exampleAuthEnv none) "b@x.com" "secret1"
    "a@x.com" "secret2" [⟨1, "alice", "a@x.com", "secret1#", 0⟩]
    [⟨1, "alice", "a@x.com", "secret1#", 0⟩] ⟨1, "alice", "a@x.com", "secret1#", 0⟩
    (by decide) (by decide) (by decide) (by decide) rfl (by decide) (by decide) (by rfl)

/-! ## Upsert: the race on the unique index -/

/-- C9, refuted: the lookup finds nothing, the insert is rejected by the compound
unique index, and the handler answers 500 with the error of the driver. -/
theorem postProgress_race_surfaces_500 :
    findOne 7 (jsTrim "LeetCode") [] = none ∧
      insertOne ⟨2, 7, "LeetCode", 1, 2, 10⟩ (raceEnv.between [])
        = .error (duplicateKeyError "userId_1_platform_1") ∧
      (postProgress raceEnv 7 ⟨some "LeetCode", some 1, some 2⟩ []).response
        = ⟨500, .failure "Server error updating progress"
            "E11000 duplicate key error index: userId_1_platform_1"⟩ := by
  refine ⟨by decide, by rfl, by decide⟩

/-- C9, amended. When a valid upsert finds no record and its insert is rejected with a
uniqueness violation on the compound index, the handler surfaces the failure: it
answers 500 with its fixed message and the message of the error, logs the error, and
writes nothing (the collection is as the concurrent writer left it). -/
theorem postProgress_duplicate_insert_is_500 (env : Env) (userId : ObjectId)
    (platform : String) (solved total : Int) (store : List Progress)
    (hplatform : jsTrim platform ≠ "") (hsolved : 0 ≤ solved) (htotal : solved ≤ total)
    (hfind : env.findFault = none) (hsave : env.saveFault = none)
    (hlookup : findOne userId (jsTrim platform) store = none)
    (hdup : insertOne ⟨env.newId, userId, jsTrim platform, solved, total, env.now⟩
        (env.between store) = .error (duplicateKeyError "userId_1_platform_1")) :
    (postProgress env userId ⟨some platform, some solved, some total⟩ store).response
        = ⟨500, .failure "Server error updating progress"
            (duplicateKeyError "userId_1_platform_1").message⟩ ∧
      (postProgress env userId ⟨some platform, some solved, some total⟩ store).store
        = env.between store ∧
      (postProgress env userId ⟨some platform, some solved, some total⟩ store).log
        = [⟨"Add/Update progress error:", duplicateKeyError "userId_1_platform_1"⟩] := by
  have hne : platform ≠ "" := by
    intro h
    apply hplatform
    rw [h]
    rfl
  have hs : ¬ (solved < 0 ∨ total < 0) := by omega
  have ht : ¬ (solved > total) := by omega
  have hv : validateNew ⟨env.newId, userId, jsTrim platform, solved, total, env.now⟩ = none := by
    have h1 : ¬ solved < 0 := by omega
    have h2 : ¬ total < 0 := by omega
    simp [validateNew, validateCounts, hplatform, h1, h2]
  simp only [postProgress, if_neg hne, if_neg hs, if_neg ht, hfind, hlookup, hv, hsave, hdup,
    upsertFailed, internal, and_self]

/-- C9, amended, at the race of `raceEnv`. -/
theorem postProgress_duplicate_insert_is_500_witness :
    (postProgress raceEnv 7 ⟨some "LeetCode", some 1, some 2⟩ []).response
        = ⟨500, .failure "Server error updating progress"
            (duplicateKeyError "userId_1_platform_1").message⟩ ∧
      (postProgress raceEnv 7 ⟨some "LeetCode", some 1, some 2⟩ []).store
        = raceEnv.between [] ∧
      (postProgress raceEnv 7 ⟨some "LeetCode", some 1, some 2⟩ []).log
        = [⟨"Add/Update progress error:", duplicateKeyError "userId_1_platform_1"⟩] :=
  postProgress_duplicate_insert_is_500 raceEnv 7 "LeetCode" 1 2 [] (by decide) (by decide)
    (by decide) rfl rfl (by decide) (by rfl)

/-! ## Failures of the storage layer -/

/-- C10, refuted. Two failures of the same login request that differ in their message
give two different 500 bodies: the message of the failure is sent in the field `error`. -/
theorem login_500_body_carries_error_message :
    (login (exampleAuthEnv (some ⟨"MongoNetworkError", "connect ECONNREFUSED"⟩))
        ⟨some "a@x.com", some "secret1"⟩ []).response
        = ⟨500, .failure "Server error during login" "connect ECONNREFUSED"⟩ ∧
      (login (exampleAuthEnv (some ⟨"MongoNetworkError", "connection timed out"⟩))
        ⟨some "a@x.com", some "secret1"⟩ []).response
        = ⟨500, .failure "Server error during login" "connection timed out"⟩ ∧
      (login (exampleAuthEnv (some ⟨"MongoNetworkError", "connect ECONNREFUSED"⟩))
        ⟨some "a@x.com", some "secret1"⟩ []).response.body
        ≠ (login (exampleAuthEnv (some ⟨"MongoNetworkError", "connection timed out"⟩))
            ⟨some "a@x.com", some "secret1"⟩ []).response.body := by
  decide

theorem authInternal_of_500 (label message : String) (e : JsError) (users : List User) :
    (authInternal label message e users).response.status = 500 →
    ∃ e2 : JsError, (authInternal label message e users).log = [⟨label, e2⟩] ∧
      (authInternal label message e users).response.body = .failure message e2.message :=
  fun _ => ⟨e, rfl, rfl⟩

theorem internal_of_500 (label message : String) (e : JsError) (store : List Progress)
    (ops : List StoreOp) :
    (internal label message e store ops).response.status = 500 →
    ∃ e2 : JsError, (internal label message e store ops).log = [⟨label, e2⟩] ∧
      (internal label message e store ops).response.body = .failure message e2.message :=
  fun _ => ⟨e, rfl, rfl⟩

theorem register_500 (env : AuthEnv) (body : RegisterBody) (users : List User)
    (h : (register env body users).response.status = 500) :
    ∃ e : JsError, (register env body users).log = [⟨"Register error:", e⟩] ∧
      (register env body users).response.body
        = .failure "Server error during registration" e.message := by
  revert h
  simp only [register]
  repeat' split
  all_goals first
    | exact authInternal_of_500 _ _ _ _
    | (intro h; simp at h)

theorem login_500 (env : AuthEnv) (body : LoginBody) (users : List User)
    (h : (login env body users).response.status = 500) :
    ∃ e : JsError, (login env body users).log = [⟨"Login error:", e⟩] ∧
      (login env body users).response.body = .failure "Server error during login" e.message := by
  revert h
  simp only [login]
  repeat' split
  all_goals first
    | exact authInternal_of_500 _ _ _ _
    | (intro h; simp at h)

theorem getProgress_500 (fault : Option JsError) (userId : ObjectId) (store : List Progress)
    (h : (getProgress fault userId store).response.status = 500) :
    ∃ e : JsError, (getProgress fault userId store).log = [⟨"Get progress error:", e⟩] ∧
      (getProgress fault userId store).response.body
        = .failure "Server error fetching progress" e.message := by
  revert h
  simp only [getProgress]
  repeat' split
  all_goals first
    | exact internal_of_500 _ _ _ _ _
    | (intro h; simp at h)

theorem postProgress_500 (env : Env) (userId : ObjectId) (body : UpsertBody)
    (store : List Progress)
    (h : (postProgress env userId body store).response.status = 500) :
    ∃ e : JsError, (postProgress env userId body store).log
        = [⟨"Add/Update progress error:", e⟩] ∧
      (postProgress env userId body store).response.body
        = .failure "Server error updating progress" e.message := by
  revert h
  simp only [postProgress]
  repeat' split
  all_goals first
    | exact internal_of_500 _ _ _ _ _
    | (intro h; simp [reject] at h)

theorem deleteProgress_500 (fault : Option JsError) (userId _id : ObjectId)
    (store : List Progress)
    (h : (deleteProgress fault userId _id store).response.status = 500) :
    ∃ e : JsError, (deleteProgress fault userId _id store).log
        = [⟨"Delete progress error:", e⟩] ∧
      (deleteProgress fault userId _id store).response.body
        = .failure "Server error deleting progress" e.message := by
  revert h
  simp only [deleteProgress]
  repeat' split
  all_goals first
    | exact internal_of_500 _ _ _ _ _
    | (intro h; simp at h)

theorem failure_bodies (label message : String) (r1 r2 : Response) (l1 l2 : List LogLine)
    (h1 : ∃ e : JsError, l1 = [⟨label, e⟩] ∧ r1.body = .failure message e.message)
    (h2 : ∃ e : JsError, l2 = [⟨label, e⟩] ∧ r2.body = .failure message e.message) :
    ∃ e1 e2 : JsError, l1 = [⟨label, e1⟩] ∧ l2 = [⟨label, e2⟩] ∧
      r1.body = .failure message e1.message ∧ r2.body = .failure message e2.message ∧
      (r1.body = r2.body ↔ e1.message = e2.message) := by
  obtain ⟨e1, hl1, hb1⟩ := h1
  obtain ⟨e2, hl2, hb2⟩ := h2
  refine ⟨e1, e2, hl1, hl2, hb1, hb2, ?_⟩
  rw [hb1, hb2]
  constructor
  · intro h
    injection h
  · intro h
    rw [h]

/-- C10, amended. In each of the five handlers, a 500 response carries the fixed message
of the handler in `message` and, in `error`, the message of the failure that was caught,
the failure written to the log.  So for two failures on the same request the two bodies
are equal exactly when the two failures have the same message. -/
theorem internal_bodies_equal_iff_same_error_message :
    (∀ (env1 env2 : AuthEnv) (body : RegisterBody) (users : List User),
      (register env1 body users).response.status = 500 →
      (register env2 body users).response.status = 500 →
      ∃ e1 e2 : JsError,
        (register env1 body users).log = [⟨"Register error:", e1⟩] ∧
        (register env2 body users).log = [⟨"Register error:", e2⟩] ∧
        (register env1 body users).response.body
          = .failure "Server error during registration" e1.message ∧
        (register env2 body users).response.body
          = .failure "Server error during registration" e2.message ∧
        ((register env1 body users).response.body = (register env2 body users).response.body
          ↔ e1.message = e2.message)) ∧
    (∀ (env1 env2 : AuthEnv) (body : LoginBody) (users : List User),
      (login env1 body users).response.status = 500 →
      (login env2 body users).response.status = 500 →
      ∃ e1 e2 : JsError,
        (login env1 body users).log = [⟨"Login error:", e1⟩] ∧
        (login env2 body users).log = [⟨"Login error:", e2⟩] ∧
        (login env1 body users).response.body
          = .failure "Server error during login" e1.message ∧
        (login env2 body users).response.body
          = .failure "Server error during login" e2.message ∧
        ((login env1 body users).response.body = (login env2 body users).response.body
          ↔ e1.message = e2.message)) ∧
    (∀ (fault1 fault2 : Option JsError) (userId : ObjectId) (store : List Progress),
      (getProgress fault1 userId store).response.status = 500 →
      (getProgress fault2 userId store).response.status = 500 →
      ∃ e1 e2 : JsError,
        (getProgress fault1 userId store).log = [⟨"Get progress error:", e1⟩] ∧
        (getProgress fault2 userId store).log = [⟨"Get progress error:", e2⟩] ∧
        (getProgress fault1 userId store).response.body
          = .failure "Server error fetching progress" e1.message ∧
        (getProgress fault2 userId store).response.body
          = .failure "Server error fetching progress" e2.message ∧
        ((getProgress fault1 userId store).response.body
            = (getProgress fault2 userId store).response.body
          ↔ e1.message = e2.message)) ∧
    (∀ (env1 env2 : Env) (userId : ObjectId) (body : UpsertBody) (store : List Progress),
      (postProgress env1 userId body store).response.status = 500 →
      (postProgress env2 userId body store).response.status = 500 →
      ∃ e1 e2 : JsError,
        (postProgress env1 userId body store).log = [⟨"Add/Update progress error:", e1⟩] ∧
        (postProgress env2 userId body store).log = [⟨"Add/Update progress error:", e2⟩] ∧
        (postProgress env1 userId body store).response.body
          = .failure "Server error updating progress" e1.message ∧
        (postProgress env2 userId body store).response.body
          = .failure "Server error updating progress" e2.message ∧
        ((postProgress env1 userId body store).response.body
            = (postProgress env2 userId body store).response.body
          ↔ e1.message = e2.message)) ∧
    (∀ (fault1 fault2 : Option JsError) (userId _id : ObjectId) (store : List Progress),
      (deleteProgress fault1 userId _id store).response.status = 500 →
      (deleteProgress fault2 userId _id store).response.status = 500 →
      ∃ e1 e2 : JsError,
        (deleteProgress fault1 userId _id store).log = [⟨"Delete progress error:", e1⟩] ∧
        (deleteProgress fault2 userId _id store).log = [⟨"Delete progress error:", e2⟩] ∧
        (deleteProgress fault1 userId _id store).response.body
          = .failure "Server error deleting progress" e1.message ∧
        (deleteProgress fault2 userId _id store).response.body
          = .failure "Server error deleting progress" e2.message ∧
        ((deleteProgress fault1 userId _id store).response.body
            = (deleteProgress fault2 userId _id store).response.body
          ↔ e1.message = e2.message)) := by
  refine ⟨?_, ?_, ?_, ?_, ?_⟩
  · intro env1 env2 body users h1 h2
    exact failure_bodies _ _ _ _ _ _ (register_500 env1 body users h1)
      (register_500 env2 body users h2)
  · intro env1 env2 body users h1 h2
    exact failure_bodies _ _ _ _ _ _ (login_500 env1 body users h1) (login_500 env2 body users h2)
  · intro fault1 fault2 userId store h1 h2
    exact failure_bodies _ _ _ _ _ _ (getProgress_500 fault1 userId store h1)
      (getProgress_500 fault2 userId store h2)
  · intro env1 env2 userId body store h1 h2
    exact failure_bodies _ _ _ _ _ _ (postProgress_500 env1 userId body store h1)
      (postProgress_500 env2 userId body store h2)
  · intro fault1 fault2 userId _id store h1 h2
    exact failure_bodies _ _ _ _ _ _ (deleteProgress_500 fault1 userId _id store h1)
      (deleteProgress_500 fault2 userId _id store h2)

/-- C10, amended, at two failures of the lookup of one login request. -/
theorem internal_bodies_equal_iff_same_error_message_witness :
    ∃ e1 e2 : JsError,
      (login (exampleAuthEnv (some ⟨"MongoNetworkError", "connect ECONNREFUSED"⟩))
        ⟨some "a@x.com", some "secret1"⟩ []).log = [⟨"Login error:", e1⟩] ∧
      (login (exampleAuthEnv (some ⟨"MongoNetworkError", "connection timed out"⟩))
        ⟨some "a@x.com", some "secret1"⟩ []).log = [⟨"Login error:", e2⟩] ∧
      (login (exampleAuthEnv (some ⟨"MongoNetworkError", "connect ECONNREFUSED"⟩))
        ⟨some "a@x.com", some "secret1"⟩ []).response.body
        = .failure "Server error during login" e1.message ∧
      (login (exampleAuthEnv (some ⟨"MongoNetworkError", "connection timed out"⟩))
        ⟨some "a@x.com", some "secret1"⟩ []).response.body
        = .failure "Server error during login" e2.message ∧
      ((login (exampleAuthEnv (some ⟨"MongoNetworkError", "connect ECONNREFUSED"⟩))
          ⟨some "a@x.com", some "secret1"⟩ []).response.body
        = (login (exampleAuthEnv (some ⟨"MongoNetworkError", "connection timed out"⟩))
          ⟨some "a@x.com", some "secret1"⟩ []).response.body
        ↔ e1.message = e2.message) :=
  internal_bodies_equal_iff_same_error_message.2.1
    (exampleAuthEnv (some ⟨"MongoNetworkError", "connect ECONNREFUSED"⟩))
    (exampleAuthEnv (some ⟨"MongoNetworkError", "connection timed out"⟩))
    ⟨some "a@x.com", some "secret1"⟩ [] (by decide) (by decide)

/-! ## Stored users are normalised -/

theorem dropWhile_of_head (p : Char → Bool) (l : List Char)
    (h : ∀ x, l.head? = some x → p x = false) : l.dropWhile p = l := by
  cases l with
  | nil => rfl
  | cons x xs =>
    have hx : p x = false := h x rfl
    simp [List.dropWhile_cons, hx]

theorem head_dropWhile (p : Char → Bool) (l : List Char) :
    ∀ x, (l.dropWhile p).head? = some x → p x = false := by
  intro x hx
  have h := List.head?_dropWhile_not p l
  rw [hx] at h
  exact h

theorem trimChars_idem (cs : List Char) : trimChars (trimChars cs) = trimChars cs := by
  unfold trimChars
  generalize ha : cs.dropWhile isJsWhiteSpace = a
  generalize hr : a.reverse.dropWhile isJsWhiteSpace = r
  have hrhead : ∀ x, r.head? = some x → isJsWhiteSpace x = false := by
    rw [← hr]
    exact head_dropWhile _ _
  have hahead : ∀ x, a.head? = some x → isJsWhiteSpace x = false := by
    rw [← ha]
    exact head_dropWhile _ _
  have hpre : r.reverse <+: a := by
    have hsuf : r <:+ a.reverse := by
      rw [← hr]
      exact List.dropWhile_suffix _
    have := List.reverse_prefix.mpr hsuf
    rwa [List.reverse_reverse] at this
  have hbhead : ∀ x, r.reverse.head? = some x → isJsWhiteSpace x = false := by
    intro x hx
    obtain ⟨t, ht⟩ := hpre
    apply hahead x
    rw [← ht]
    cases hb : r.reverse with
    | nil => rw [hb] at hx; cases hx
    | cons y ys =>
      rw [hb] at hx
      simpa using hx
  rw [dropWhile_of_head _ _ hbhead, List.reverse_reverse, dropWhile_of_head _ _ hrhead]

theorem jsTrim_idem (s : String) : jsTrim (jsTrim s) = jsTrim s := by
  simp only [jsTrim, trimChars_idem]

/-- When the setters of the `email` path are idempotent, as lower case followed by
trimming is, `register` keeps every stored username trimmed and every stored email
unchanged by the setters. -/
theorem register_keeps_users_normalized (env : AuthEnv) (body : RegisterBody)
    (users : List User)
    (hidem : ∀ s, emailSetter env (emailSetter env s) = emailSetter env s)
    (hnorm : ∀ u ∈ users, jsTrim u.username = u.username ∧ emailSetter env u.email = u.email) :
    ∀ u ∈ (register env body users).users,
      jsTrim u.username = u.username ∧ emailSetter env u.email = u.email := by
  have hins : ∀ (w : User) (users2 : List User),
      insertUser w users = .ok users2 →
      jsTrim w.username = w.username ∧ emailSetter env w.email = w.email →
      ∀ u ∈ users2, jsTrim u.username = u.username ∧ emailSetter env u.email = u.email := by
    intro w users2 h hw u hu
    unfold insertUser at h
    split at h
    · cases h
    · split at h
      · cases h
      · split at h
        · cases h
        · cases h
          rcases List.mem_append.mp hu with hu | hu
          · exact hnorm u hu
          · rw [List.mem_singleton.mp hu]
            exact hw
  simp only [register]
  repeat' split
  all_goals first
    | exact hnorm
    | (refine hins ?_ _ ?_ ?_
       rotate_left
       · assumption
       · exact ⟨jsTrim_idem _, hidem _⟩)

/-! ## Register: duplicate identity -/

/-- C11. A register request with the three fields present (non-empty), whose lookup does
not fail, is answered 400 with the message of a duplicate identity when a stored user
has the same username, or an email equal to the requested one up to letter case; the
body carries no token, nothing is logged and the collection of users is unchanged.
The stored user is one the schema has written: its username is trimmed and its email is
left unchanged by the setters of the `email` path. -/
theorem register_duplicate_identity_rejected (env : AuthEnv)
    (username email password : String) (users : List User) (v : User)
    (husername : username ≠ "") (hemail : email ≠ "") (hpassword : password ≠ "")
    (hfault : env.findFault = none)
    (hv : v ∈ users)
    (hnorm : jsTrim v.username = v.username ∧ emailSetter env v.email = v.email)
    (hdup : v.username = username ∨ env.toLowerCase v.email = env.toLowerCase email) :
    register env ⟨some username, some email, some password⟩ users
      = ⟨⟨400, .message "User with this email or username already exists"⟩, users, []⟩ := by
  have hfields : ¬ (username = "" ∨ email = "" ∨ password = "") := by
    rintro (h | h | h)
    · exact husername h
    · exact hemail h
    · exact hpassword h
  have hmatch : (v.email == emailSetter env email || v.username == jsTrim username) = true := by
    rcases hdup with h | h
    · have : v.username = jsTrim username := by rw [← h]; exact hnorm.1.symm
      simp [this]
    · have : v.email = emailSetter env email := by
        rw [← hnorm.2]
        simp only [emailSetter, h]
      simp [this]
  cases hfind : users.find? (fun u => u.email == emailSetter env email ||
      u.username == jsTrim username) with
  | none =>
    have := List.find?_eq_none.mp hfind v hv
    exact absurd hmatch this
  | some found =>
    simp only [register, if_neg hfields, hfault, hfind]

/-- C11, at a stored user `alice`: the same username with another email, and another
username with the same email in capitals. -/
theorem register_duplicate_identity_rejected_witness :
    register caseEnv ⟨some "alice", some "b@x.com", some "secret2"⟩
        [⟨1, "alice", "a@x.com", "secret1#", 0⟩]
      = ⟨⟨400, .message "User with this email or username already exists"⟩,
          [⟨1, "alice", "a@x.com", "secret1#", 0⟩], []⟩ ∧
    register caseEnv ⟨some "bob", some "A@X.com", some "secret2"⟩
        [⟨1, "alice", "a@x.com", "secret1#", 0⟩]
      = ⟨⟨400, .message "User with this email or username already exists"⟩,
          [⟨1, "alice", "a@x.com", "secret1#", 0⟩], []⟩ :=
  ⟨register_duplicate_identity_rejected caseEnv "alice" "b@x.com" "secret2"
      [⟨1, "alice", "a@x.com", "secret1#", 0⟩] ⟨1, "alice", "a@x.com", "secret1#", 0⟩
      (by decide) (by decide) (by decide) rfl (by decide) (by decide) (Or.inl rfl),
    register_duplicate_identity_rejected caseEnv "bob" "A@X.com" "secret2"
      [⟨1, "alice", "a@x.com", "secret1#", 0⟩] ⟨1, "alice", "a@x.com", "secret1#", 0⟩
      (by decide) (by decide) (by decide) rfl (by decide) (by decide) (Or.inr (by decide))⟩

/-! ## Bearer round trip -/

theorem replaceFirst_at_head (pattern replacement rest : List Char) (h : pattern ≠ []) :
    replaceFirst pattern replacement (pattern ++ rest) = replacement ++ rest := by
  cases pattern with
  | nil => exact absurd rfl h
  | cons c cs =>
    have hpre : (c :: cs).isPrefixOf (c :: (cs ++ rest)) = true := by
      rw [List.isPrefixOf_iff_prefix, ← List.cons_append]
      exact List.prefix_append _ _
    have hdrop : (c :: (cs ++ rest)).drop (c :: cs).length = rest := by
      rw [← List.cons_append]
      exact List.drop_left _ _
    rw [List.cons_append]
    simp only [replaceFirst, hpre, if_true, hdrop]

/-- C12. For a non-empty token `t` in the storage of the client, the interceptor sets the
header to `Bearer ` followed by `t`, the extraction of the middleware reduces that header
to `t` itself (also when `t` contains `Bearer `), and the middleware verifies `t`. -/
theorem bearer_round_trip (jwtVerify : String → Except JsError Decoded) (t : String)
    (authorization : Option String) (ht : t ≠ "") :
    requestInterceptor (some t) authorization = some ("Bearer " ++ t) ∧
      extractToken (requestInterceptor (some t) authorization) = some t ∧
      authMiddleware jwtVerify (requestInterceptor (some t) authorization)
        = (match jwtVerify t with
          | .ok decoded => .next decoded.userId
          | .error _ => .responded ⟨401, .message "Token is not valid or has expired"⟩) := by
  have hbuilt : requestInterceptor (some t) authorization = some ("Bearer " ++ t) := by
    simp only [requestInterceptor, if_neg ht]
  have hextract : extractToken (some ("Bearer " ++ t)) = some t := by
    simp only [extractToken, Option.map_some', String.data_append]
    rw [replaceFirst_at_head _ _ _ (by decide), List.nil_append]
  refine ⟨hbuilt, by rw [hbuilt, hextract], ?_⟩
  rw [hbuilt]
  simp only [authMiddleware, hextract, if_neg ht]

/-- C12, at a token that itself contains `Bearer `. -/
theorem bearer_round_trip_witness :
    requestInterceptor (some "Bearer x") none = some "Bearer Bearer x" ∧
      extractToken (requestInterceptor (some "Bearer x") none) = some "Bearer x" :=
  have h := bearer_round_trip exampleVerify "Bearer x" none (by decide)
  ⟨h.1, h.2.1⟩

end Tracker
